import Mathlib

/-!
The package certmon: the configuration builder of the certificate monitor

Embedding of `agent/cert-monitor/config.go`.

* Go values of types declared outside the file (`hclog.Logger`, `*tlsutil.Configurator`,
  `Cache`, `*token.Store`, `*structs.SignedResponse`, func values) are references: `nil` or
  the identity of an object.  The setters only copy such a value into a field.
* A slice is `nil` or a sequence of elements (`nil` and the empty slice are different values).
* `time.Duration` is an `int64` count of nanoseconds; the setters do no arithmetic on it.
* `*Config` is a pointer into a heap of `Config` objects; a method with a pointer receiver
  takes the heap and returns the new heap together with its result, or panics.
* The renewal scheduler that reads `FallbackLeeway` and `FallbackRetry` is not in the file; its
  states, transitions and wake deadline are modelled from the spec.
-/

namespace certmon

/-- A Go reference value (pointer, interface or func value): `none` is `nil`. -/
abbrev Ref := Option Nat

/-- A Go slice: `none` is the nil slice, `some []` an empty non-nil slice. -/
abbrev Slice (α : Type) := Option (List α)

/-- Values of `time.Duration` (`int64` nanoseconds). -/
abbrev Duration := Int

/-- The interface `hclog.Logger`. -/
abbrev Logger := Ref

/-- The type `*tlsutil.Configurator`. -/
abbrev ConfiguratorPtr := Ref

/-- The interface `Cache` of the package. -/
abbrev Cache := Ref

/-- The type `*token.Store`. -/
abbrev StorePtr := Ref

/-- The type `FallbackFunc`, `func(context.Context) (*structs.SignedResponse, error)`. -/
abbrev FallbackFunc := Ref

/-- The type `*structs.SignedResponse`. -/
abbrev SignedResponsePtr := Ref

/-- The type `net.IP`, a byte slice. -/
abbrev IP := Slice (Fin 256)

/-- The struct `Config`, fields in source order. -/
structure Config where
  Logger : Logger
  TLSConfigurator : ConfiguratorPtr
  Cache : Cache
  Tokens : StorePtr
  Fallback : FallbackFunc
  FallbackLeeway : Duration
  FallbackRetry : Duration
  InitialCerts : SignedResponsePtr
  DNSSANs : Slice String
  IPSANs : Slice IP
  Datacenter : String
  NodeName : String
deriving DecidableEq, Repr

/-- The zero value of `Config`, what `Config{}` and `new(Config)` hold. -/
def Config.zero : Config :=
  { Logger := none, TLSConfigurator := none, Cache := none, Tokens := none, Fallback := none,
    FallbackLeeway := 0, FallbackRetry := 0, InitialCerts := none, DNSSANs := none,
    IPSANs := none, Datacenter := "", NodeName := "" }

/-- The run-time panic of a field access through a nil pointer. -/
inductive Panic where
  | nilDereference
deriving DecidableEq, Repr

/-- The heap of `Config` objects: the object at each address, if one is allocated there. -/
abbrev Heap := Nat → Option Config

/-- The type `*Config`. -/
abbrev ConfigPtr := Option Nat

/-- The heap after `cfg.F = v`, where `f` is the update of field `F`; a nil `cfg` panics. -/
def assign (cfg : ConfigPtr) (f : Config → Config) (h : Heap) : Except Panic Heap :=
  match cfg with
  | none => .error .nilDereference
  | some a =>
    match h a with
    | none => .error .nilDereference
    | some c => .ok (Function.update h a (some (f c)))

/-- The method body `cfg.F = v; return cfg`. -/
def assignAndReturn (cfg : ConfigPtr) (f : Config → Config) (h : Heap) :
    Except Panic (ConfigPtr × Heap) :=
  match assign cfg f h with
  | .error e => .error e
  | .ok h' => .ok (cfg, h')

/-- WithCache: `cfg.Cache = cache; return cfg`. -/
def WithCache (cfg : ConfigPtr) (cache : Cache) : Heap → Except Panic (ConfigPtr × Heap) :=
  assignAndReturn cfg (fun c => { c with Cache := cache })

/-- WithLogger: `cfg.Logger = logger; return cfg`. -/
def WithLogger (cfg : ConfigPtr) (logger : Logger) : Heap → Except Panic (ConfigPtr × Heap) :=
  assignAndReturn cfg (fun c => { c with Logger := logger })

/-- WithTLSConfigurator: `cfg.TLSConfigurator = tlsConfigurator; return cfg`. -/
def WithTLSConfigurator (cfg : ConfigPtr) (tlsConfigurator : ConfiguratorPtr) :
    Heap → Except Panic (ConfigPtr × Heap) :=
  assignAndReturn cfg (fun c => { c with TLSConfigurator := tlsConfigurator })

/-- WithTokens: `cfg.Tokens = tokens; return cfg`. -/
def WithTokens (cfg : ConfigPtr) (tokens : StorePtr) : Heap → Except Panic (ConfigPtr × Heap) :=
  assignAndReturn cfg (fun c => { c with Tokens := tokens })

/-- WithFallback: `cfg.Fallback = fallback; return cfg`. -/
def WithFallback (cfg : ConfigPtr) (fallback : FallbackFunc) :
    Heap → Except Panic (ConfigPtr × Heap) :=
  assignAndReturn cfg (fun c => { c with Fallback := fallback })

/-- WithInitialCerts: `cfg.InitialCerts = info; return cfg`. -/
def WithInitialCerts (cfg : ConfigPtr) (info : SignedResponsePtr) :
    Heap → Except Panic (ConfigPtr × Heap) :=
  assignAndReturn cfg (fun c => { c with InitialCerts := info })

/-- WithDNSSANs: `cfg.DNSSANs = sans; return cfg`. -/
def WithDNSSANs (cfg : ConfigPtr) (sans : Slice String) :
    Heap → Except Panic (ConfigPtr × Heap) :=
  assignAndReturn cfg (fun c => { c with DNSSANs := sans })

/-- WithIPSANs: `cfg.IPSANs = sans; return cfg`. -/
def WithIPSANs (cfg : ConfigPtr) (sans : Slice IP) : Heap → Except Panic (ConfigPtr × Heap) :=
  assignAndReturn cfg (fun c => { c with IPSANs := sans })

/-- WithDatacenter: `cfg.Datacenter = dc; return cfg`. -/
def WithDatacenter (cfg : ConfigPtr) (dc : String) : Heap → Except Panic (ConfigPtr × Heap) :=
  assignAndReturn cfg (fun c => { c with Datacenter := dc })

/-- WithNodeName: `cfg.NodeName = name; return cfg`. -/
def WithNodeName (cfg : ConfigPtr) (name : String) : Heap → Except Panic (ConfigPtr × Heap) :=
  assignAndReturn cfg (fun c => { c with NodeName := name })

/-- WithFallbackLeeway: `cfg.FallbackLeeway = leeway; return cfg`. -/
def WithFallbackLeeway (cfg : ConfigPtr) (leeway : Duration) :
    Heap → Except Panic (ConfigPtr × Heap) :=
  assignAndReturn cfg (fun c => { c with FallbackLeeway := leeway })

/-- WithFallbackRetry: `cfg.FallbackRetry = after; return cfg`. -/
def WithFallbackRetry (cfg : ConfigPtr) (after : Duration) :
    Heap → Except Panic (ConfigPtr × Heap) :=
  assignAndReturn cfg (fun c => { c with FallbackRetry := after })

/-- The names of the twelve fields of `Config`. -/
inductive Field where
  | Logger | TLSConfigurator | Cache | Tokens | Fallback | FallbackLeeway | FallbackRetry
  | InitialCerts | DNSSANs | IPSANs | Datacenter | NodeName
deriving DecidableEq, Repr

/-- One call of a setter, with its argument. -/
inductive Call where
  | WithCache (cache : Cache)
  | WithLogger (logger : Logger)
  | WithTLSConfigurator (tlsConfigurator : ConfiguratorPtr)
  | WithTokens (tokens : StorePtr)
  | WithFallback (fallback : FallbackFunc)
  | WithInitialCerts (info : SignedResponsePtr)
  | WithDNSSANs (sans : Slice String)
  | WithIPSANs (sans : Slice IP)
  | WithDatacenter (dc : String)
  | WithNodeName (name : String)
  | WithFallbackLeeway (leeway : Duration)
  | WithFallbackRetry (after : Duration)
deriving DecidableEq, Repr

/-- The field a setter is named after. -/
def Call.field : Call → Field
  | .WithCache _ => .Cache
  | .WithLogger _ => .Logger
  | .WithTLSConfigurator _ => .TLSConfigurator
  | .WithTokens _ => .Tokens
  | .WithFallback _ => .Fallback
  | .WithInitialCerts _ => .InitialCerts
  | .WithDNSSANs _ => .DNSSANs
  | .WithIPSANs _ => .IPSANs
  | .WithDatacenter _ => .Datacenter
  | .WithNodeName _ => .NodeName
  | .WithFallbackLeeway _ => .FallbackLeeway
  | .WithFallbackRetry _ => .FallbackRetry

/-- The method call `cfg.WithX(v)`. -/
def Call.invoke (k : Call) (cfg : ConfigPtr) : Heap → Except Panic (ConfigPtr × Heap) :=
  match k with
  | .WithCache v => certmon.WithCache cfg v
  | .WithLogger v => certmon.WithLogger cfg v
  | .WithTLSConfigurator v => certmon.WithTLSConfigurator cfg v
  | .WithTokens v => certmon.WithTokens cfg v
  | .WithFallback v => certmon.WithFallback cfg v
  | .WithInitialCerts v => certmon.WithInitialCerts cfg v
  | .WithDNSSANs v => certmon.WithDNSSANs cfg v
  | .WithIPSANs v => certmon.WithIPSANs cfg v
  | .WithDatacenter v => certmon.WithDatacenter cfg v
  | .WithNodeName v => certmon.WithNodeName cfg v
  | .WithFallbackLeeway v => certmon.WithFallbackLeeway cfg v
  | .WithFallbackRetry v => certmon.WithFallbackRetry cfg v

/-- The chained call `cfg.WithA(a).WithB(b)...`: each call's receiver is the value the call
before it returned. -/
def chain (cfg : ConfigPtr) : List Call → Heap → Except Panic (ConfigPtr × Heap)
  | [], h => .ok (cfg, h)
  | k :: ks, h =>
    match k.invoke cfg h with
    | .error e => .error e
    | .ok r => chain r.1 ks r.2

/-- The statement "the field the setter is named after holds the setter's argument". -/
def Call.stored : Call → Config → Prop
  | .WithCache v, c => c.Cache = v
  | .WithLogger v, c => c.Logger = v
  | .WithTLSConfigurator v, c => c.TLSConfigurator = v
  | .WithTokens v, c => c.Tokens = v
  | .WithFallback v, c => c.Fallback = v
  | .WithInitialCerts v, c => c.InitialCerts = v
  | .WithDNSSANs v, c => c.DNSSANs = v
  | .WithIPSANs v, c => c.IPSANs = v
  | .WithDatacenter v, c => c.Datacenter = v
  | .WithNodeName v, c => c.NodeName = v
  | .WithFallbackLeeway v, c => c.FallbackLeeway = v
  | .WithFallbackRetry v, c => c.FallbackRetry = v

/-- The field assignment of a setter call, as a function on `Config` values. -/
def Call.update (c : Config) : Call → Config
  | .WithCache v => { c with Cache := v }
  | .WithLogger v => { c with Logger := v }
  | .WithTLSConfigurator v => { c with TLSConfigurator := v }
  | .WithTokens v => { c with Tokens := v }
  | .WithFallback v => { c with Fallback := v }
  | .WithInitialCerts v => { c with InitialCerts := v }
  | .WithDNSSANs v => { c with DNSSANs := v }
  | .WithIPSANs v => { c with IPSANs := v }
  | .WithDatacenter v => { c with Datacenter := v }
  | .WithNodeName v => { c with NodeName := v }
  | .WithFallbackLeeway v => { c with FallbackLeeway := v }
  | .WithFallbackRetry v => { c with FallbackRetry := v }

/-- The heap holding one `Config`, at address `a`. -/
def Heap.single (a : Nat) (c : Config) : Heap :=
  fun b => if b = a then some c else none

/-- The explicit configuration record of the spec: each named field given its value at
construction. -/
def explicitRecord (logger : Logger) (tlsConfigurator : ConfiguratorPtr) (cache : Cache)
    (tokens : StorePtr) (fallback : FallbackFunc) (leeway retry : Duration)
    (info : SignedResponsePtr) (dnsSANs : Slice String) (ipSANs : Slice IP)
    (dc name : String) : Config :=
  { Logger := logger, TLSConfigurator := tlsConfigurator, Cache := cache, Tokens := tokens,
    Fallback := fallback, FallbackLeeway := leeway, FallbackRetry := retry,
    InitialCerts := info, DNSSANs := dnsSANs, IPSANs := ipSANs, Datacenter := dc,
    NodeName := name }

/-- One call of each of the twelve setters, in the order of the source file. -/
def allTwelve (logger : Logger) (tlsConfigurator : ConfiguratorPtr) (cache : Cache)
    (tokens : StorePtr) (fallback : FallbackFunc) (leeway retry : Duration)
    (info : SignedResponsePtr) (dnsSANs : Slice String) (ipSANs : Slice IP)
    (dc name : String) : List Call :=
  [.WithCache cache, .WithLogger logger, .WithTLSConfigurator tlsConfigurator,
   .WithTokens tokens, .WithFallback fallback, .WithInitialCerts info, .WithDNSSANs dnsSANs,
   .WithIPSANs ipSANs, .WithDatacenter dc, .WithNodeName name, .WithFallbackLeeway leeway,
   .WithFallbackRetry retry]

/-- The constant `time.Second`, in nanoseconds. -/
def Second : Duration := 1000000000

/-! ## The renewal scheduler

The loop that consumes a `Config` is not in `config.go`; spec sections 3 to 5 describe it. -/

/-- A point in time, in nanoseconds since the start of the run. -/
abbrev Time := Int

/-- Modelled from the spec: the Certificate Value of section 3, a type of the renewal
scheduler, which is not in `config.go`. Only the validity window is inspected; `material`
stands for leaf, key and chain. -/
structure CertificateValue where
  material : Nat
  notBefore : Time
  notAfter : Time
deriving DecidableEq, Repr

/-- Modelled from the spec: the four states of the Renewal Scheduler (section 4.3), which is
not in `config.go`. -/
inductive SchedulerState where
  | SEEDED | WATCHING | FALLBACK_PENDING | FALLBACK_BACKOFF
deriving DecidableEq, Repr

/-- Modelled from the spec: the Renewal State of section 3, owned by the scheduler loop, which
is not in `config.go`. The outstanding-fallback flag is kept as the number of Fallback calls in
flight, so that "at most one" is a property of the transitions and not of the type; `deadline`
is the next wake deadline (`none`: no timer armed); `stopped` is set by shutdown. -/
structure RenewalState where
  state : SchedulerState
  active : Option CertificateValue
  lastUpdate : Option Time
  outstanding : Nat
  deadline : Option Time
  stopped : Bool
deriving DecidableEq, Repr

/-- Modelled from the spec: the events the scheduler loop receives (sections 2, 4.1, 4.3 and
5); the loop is not in `config.go`. `wake` is the timer of the wake deadline firing;
`fallbackOk` and `fallbackErr` are the two results of a call of `Config.Fallback`. -/
inductive Event where
  | watcherUpdate (c : CertificateValue)
  | watcherStale
  | wake
  | fallbackOk (c : CertificateValue)
  | fallbackErr
  | shutdown
deriving DecidableEq, Repr

/-- Modelled from the spec: what a transition of the scheduler does to its collaborators
(the loop is not in `config.go`): start a call of `Config.Fallback`, cancel the outstanding
one, invoke the Publisher, log the critical condition of serving an expired certificate. -/
inductive Action where
  | startFallback
  | cancelFallback
  | publish (c : CertificateValue)
  | critical
deriving DecidableEq, Repr

/-- Modelled from the spec: the wake deadline of the Renewal Scheduler, which is not in
`config.go`. Section 4.3 recomputes it as `notAfter − fallbackLeeway`: the scheduler wakes
`FallbackLeeway` before the active certificate expires. -/
def wakeDeadline (cfg : Config) (notAfter : Time) : Time :=
  notAfter - cfg.FallbackLeeway

/-- Modelled from the spec: the check of the accept path of the scheduler loop (not in
`config.go`). A value is accepted when it is inside its validity window at the moment of
acceptance (section 3) and its window ends later than that of the active value: a delivery
with an unchanged window is a no-op (section 4.1) and a stale result does not overwrite a newer
value (sections 5 and 9). -/
def acceptable (now : Time) (active : Option CertificateValue) (c : CertificateValue) : Bool :=
  decide (c.notBefore ≤ now) && decide (now ≤ c.notAfter) &&
    match active with
    | none => true
    | some cur => decide (cur.notAfter < c.notAfter)

/-- Modelled from the spec: the transition "on failed fallback issuance" of section 4.3 (the
loop is not in `config.go`): the call is over, the state is `FALLBACK_BACKOFF`, the retry wake
is at `now + FallbackRetry`, and serving an expired certificate (or none) is logged as
critical. -/
def fallbackFailed (cfg : Config) (now : Time) (s : RenewalState) : RenewalState × List Action :=
  ({ s with state := .FALLBACK_BACKOFF, outstanding := s.outstanding - 1,
            deadline := some (now + cfg.FallbackRetry) },
   match s.active with
   | none => [.critical]
   | some cur => if cur.notAfter < now then [.critical] else [])

/-- Modelled from the spec: the transition that invokes the Fallback Issuer (section 4.3; the
loop is not in `config.go`). From `SEEDED`, `WATCHING` and `FALLBACK_BACKOFF` a call is started
and the state is `FALLBACK_PENDING`; while a call is pending no second one is started
(section 5). -/
def invokeFallback (s : RenewalState) : RenewalState × List Action :=
  match s.state with
  | .FALLBACK_PENDING => (s, [])
  | _ => ({ s with state := .FALLBACK_PENDING, outstanding := s.outstanding + 1 },
          [.startFallback])

/-- Modelled from the spec: one transition of the Renewal Scheduler (sections 4.3, 4.4 and 5),
the loop that consumes the `Config` and is not in `config.go`. `pub c` is the outcome of the
Publisher for `c`; `now` is the time of the event. The wake deadline of an accepted value is
`wakeDeadline`. -/
def step (cfg : Config) (pub : CertificateValue → Bool) (now : Time) (s : RenewalState)
    (e : Event) : RenewalState × List Action :=
  if s.stopped then (s, [])
  else
    match e with
    | .watcherUpdate c =>
      if acceptable now s.active c then
        if pub c then
          ({ s with state := .WATCHING, active := some c, lastUpdate := some now,
                    outstanding := 0, deadline := some (wakeDeadline cfg c.notAfter) },
           (if 0 < s.outstanding then [.cancelFallback] else []) ++ [.publish c])
        else
          ({ s with lastUpdate := some now, deadline := some now }, [.publish c])
      else
        ({ s with lastUpdate := some now }, [])
    | .watcherStale =>
      match s.state with
      | .SEEDED => invokeFallback s
      | .WATCHING => invokeFallback s
      | _ => (s, [])
    | .wake =>
      match s.deadline with
      | none => (s, [])
      | some d => if d ≤ now then invokeFallback s else (s, [])
    | .fallbackOk c =>
      match s.state with
      | .FALLBACK_PENDING =>
        if acceptable now s.active c then
          if pub c then
            ({ s with state := .WATCHING, active := some c, outstanding := s.outstanding - 1,
                      deadline := some (wakeDeadline cfg c.notAfter) }, [.publish c])
          else
            ({ s with state := .FALLBACK_BACKOFF, outstanding := s.outstanding - 1,
                      deadline := some now }, [.publish c])
        else fallbackFailed cfg now s
      | _ => (s, [])
    | .fallbackErr =>
      match s.state with
      | .FALLBACK_PENDING => fallbackFailed cfg now s
      | _ => (s, [])
    | .shutdown =>
      ({ s with stopped := true, outstanding := 0, deadline := none },
       if 0 < s.outstanding then [.cancelFallback] else [])

/-- Modelled from the spec: the initial state of the scheduler (section 4.3; the loop is not
in `config.go`): `SEEDED` with the initial Certificate Value, or, when none is supplied,
`FALLBACK_PENDING` with a call started at once. -/
def start (cfg : Config) (initial : Option CertificateValue) : RenewalState × List Action :=
  match initial with
  | some c =>
    ({ state := .SEEDED, active := some c, lastUpdate := none, outstanding := 0,
       deadline := some (wakeDeadline cfg c.notAfter), stopped := false }, [])
  | none =>
    ({ state := .FALLBACK_PENDING, active := none, lastUpdate := none, outstanding := 1,
       deadline := none, stopped := false }, [.startFallback])

/-- Modelled from the spec: a run of the scheduler loop (single, sequential, section 5; not in
`config.go`): the state after the timed events `es`, from the initial state. -/
def run (cfg : Config) (pub : CertificateValue → Bool) (initial : Option CertificateValue)
    (es : List (Time × Event)) : RenewalState :=
  es.foldl (fun s e => (step cfg pub e.1 s e.2).1) (start cfg initial).1

/-- Modelled from the spec: whether an event comes from the Cache Watcher (section 4.1), whose
consumer, the scheduler loop, is not in `config.go`. -/
def Event.fromWatcher : Event → Bool
  | .watcherUpdate _ => true
  | .watcherStale => true
  | _ => false

/-- Modelled from the spec: the actions of a run of the scheduler loop (not in `config.go`)
from state `s` over the timed events `es`, each action with the time of the event whose
transition produced it. -/
def logFrom (cfg : Config) (pub : CertificateValue → Bool) :
    RenewalState → List (Time × Event) → List (Time × Action)
  | _, [] => []
  | s, e :: es =>
    (step cfg pub e.1 s e.2).2.map (fun a => (e.1, a)) ++
      logFrom cfg pub (step cfg pub e.1 s e.2).1 es

/-- Modelled from the spec: the times at which a log of the scheduler loop (not in
`config.go`) starts a call of `Config.Fallback`. -/
def callTimes (l : List (Time × Action)) : List Time :=
  (l.filter (fun x => decide (x.2 = Action.startFallback))).map Prod.fst

/-- Modelled from the spec: the events of the scenario of section 8 from state `s` (the loop is
not in `config.go`): no watcher activity; in each round the timer fires at the wake deadline
the scheduler holds, and the result of the Fallback call is an error that arrives `lat` later,
with one latency per round. -/
def failingEvents (cfg : Config) (pub : CertificateValue → Bool) :
    List Duration → RenewalState → List (Time × Event)
  | [], _ => []
  | lat :: lats, s =>
    match s.deadline with
    | none => []
    | some d =>
      (d, .wake) :: (d + lat, .fallbackErr) ::
        failingEvents cfg pub lats
          (step cfg pub (d + lat) (step cfg pub d s .wake).1 .fallbackErr).1

/-- Modelled from the spec: the call times that the rule of section 4.3 gives (the loop is not
in `config.go`): the first call at the wake deadline `d`, and after a call that failed `lat`
after it was made the next one `retry` after the failure. -/
def retrySchedule (d : Time) (retry : Duration) : List Duration → List Time
  | [] => []
  | lat :: lats => d :: retrySchedule (d + lat + retry) retry lats

/-- The configuration of the scenario of section 8 of the spec: the zero-value `Config` with
`FallbackLeeway` 10s and `FallbackRetry` 5s. -/
def scenarioConfig : Config :=
  { Config.zero with FallbackLeeway := 10 * Second, FallbackRetry := 5 * Second }

/-! ## The setters -/

theorem assignAndReturn_ok (h : Heap) (a : Nat) (c : Config) (f : Config → Config)
    (hc : h a = some c) :
    assignAndReturn (some a) f h = .ok (some a, Function.update h a (some (f c))) := by
  simp [assignAndReturn, assign, hc]

theorem assignAndReturn_nil (f : Config → Config) (h : Heap) :
    assignAndReturn none f h = .error .nilDereference := by
  simp [assignAndReturn, assign]

theorem assignAndReturn_unallocated (h : Heap) (a : Nat) (f : Config → Config)
    (hc : h a = none) : assignAndReturn (some a) f h = .error .nilDereference := by
  simp [assignAndReturn, assign, hc]

theorem invoke_ok (k : Call) (h : Heap) (a : Nat) (c : Config) (hc : h a = some c) :
    k.invoke (some a) h = .ok (some a, Function.update h a (some (Call.update c k))) := by
  cases k <;> exact assignAndReturn_ok h a c _ hc

theorem invoke_nil (k : Call) (h : Heap) : k.invoke none h = .error .nilDereference := by
  cases k <;> rfl

theorem invoke_unallocated (k : Call) (h : Heap) (a : Nat) (hc : h a = none) :
    k.invoke (some a) h = .error .nilDereference := by
  cases k <;> exact assignAndReturn_unallocated h a _ hc

theorem chain_ok (ks : List Call) (h : Heap) (a : Nat) (c : Config) (hc : h a = some c) :
    chain (some a) ks h = .ok (some a, Function.update h a (some (ks.foldl Call.update c))) := by
  induction ks generalizing h c with
  | nil =>
    have : Function.update h a (some c) = h := by
      rw [← hc]; exact Function.update_eq_self a h
    simp [chain, this]
  | cons k ks ih =>
    have h1 : Function.update h a (some (Call.update c k)) a = some (Call.update c k) := by
      simp
    simp only [chain, invoke_ok k h a c hc, List.foldl_cons]
    rw [ih _ _ h1, Function.update_idem]

theorem chain_cons_nil (k : Call) (ks : List Call) (h : Heap) :
    chain none (k :: ks) h = .error .nilDereference := by
  simp [chain, invoke_nil]

theorem chain_cons_unallocated (k : Call) (ks : List Call) (h : Heap) (a : Nat)
    (hc : h a = none) : chain (some a) (k :: ks) h = .error .nilDereference := by
  simp [chain, invoke_unallocated k h a hc]

theorem update_same_field (c : Config) (x y : Call) (hxy : x.field = y.field) :
    Call.update (Call.update c x) y = Call.update c y := by
  cases x <;> cases y <;> first | rfl | (simp [Call.field] at hxy)

theorem update_comm (c : Config) (x y : Call) (hxy : x.field ≠ y.field) :
    Call.update (Call.update c x) y = Call.update (Call.update c y) x := by
  cases x <;> cases y <;> first | rfl | (exact absurd rfl hxy)

theorem foldl_same_field (xs : List Call) (y : Call) (c : Config)
    (hxs : ∀ x ∈ xs, x.field = y.field) :
    (xs ++ [y]).foldl Call.update c = Call.update c y := by
  induction xs generalizing c with
  | nil => rfl
  | cons x xs ih =>
    have hx : x.field = y.field := hxs x (List.mem_cons_self x xs)
    have hrest : ∀ z ∈ xs, z.field = y.field := fun z hz => hxs z (List.mem_cons_of_mem x hz)
    simp only [List.cons_append, List.foldl_cons]
    rw [ih _ hrest]
    exact update_same_field c x y hx

theorem stored_update (c : Config) (k : Call) : k.stored (Call.update c k) := by
  cases k <;> rfl

theorem stored_update_other (c : Config) (k x : Call) (hkx : k.field ≠ x.field)
    (hk : k.stored c) : k.stored (Call.update c x) := by
  cases k <;> cases x <;> first | exact hk | (exact absurd rfl hkx)

theorem stored_foldl (ks : List Call) (c : Config) (k : Call)
    (hks : ∀ x ∈ ks, k.field ≠ x.field) (hk : k.stored c) :
    k.stored (ks.foldl Call.update c) := by
  induction ks generalizing c with
  | nil => exact hk
  | cons x xs ih =>
    simp only [List.foldl_cons]
    exact ih _ (fun z hz => hks z (List.mem_cons_of_mem x hz))
      (stored_update_other c k x (hks x (List.mem_cons_self x xs)) hk)

theorem stored_foldl_nodup (ks : List Call) (c : Config)
    (hnd : (ks.map Call.field).Nodup) : ∀ k ∈ ks, k.stored (ks.foldl Call.update c) := by
  induction ks generalizing c with
  | nil => intro k hk; cases hk
  | cons x xs ih =>
    rw [List.map_cons, List.nodup_cons] at hnd
    intro k hk
    simp only [List.foldl_cons]
    rcases List.mem_cons.mp hk with rfl | hk
    · refine stored_foldl xs _ k ?_ (stored_update c k)
      intro z hz hkz
      exact hnd.1 (hkz ▸ List.mem_map_of_mem Call.field hz)
    · exact ih _ hnd.2 k hk

/-! ## The claims about the setters -/

/-- C1: on a receiver that points to a `Config`, each of the twelve setters returns without a
panic, and afterwards the field the setter is named after holds the argument exactly as it was
passed, whatever the argument is. -/
theorem setters_store_verbatim (h : Heap) (a : Nat) (c : Config) (hc : h a = some c) :
    (∀ v, ∃ r h' c', WithCache (some a) v h = .ok (r, h') ∧ h' a = some c' ∧ c'.Cache = v) ∧
    (∀ v, ∃ r h' c', WithLogger (some a) v h = .ok (r, h') ∧ h' a = some c' ∧ c'.Logger = v) ∧
    (∀ v, ∃ r h' c', WithTLSConfigurator (some a) v h = .ok (r, h') ∧ h' a = some c' ∧ c'.TLSConfigurator = v) ∧
    (∀ v, ∃ r h' c', WithTokens (some a) v h = .ok (r, h') ∧ h' a = some c' ∧ c'.Tokens = v) ∧
    (∀ v, ∃ r h' c', WithFallback (some a) v h = .ok (r, h') ∧ h' a = some c' ∧ c'.Fallback = v) ∧
    (∀ v, ∃ r h' c', WithInitialCerts (some a) v h = .ok (r, h') ∧ h' a = some c' ∧ c'.InitialCerts = v) ∧
    (∀ v, ∃ r h' c', WithDNSSANs (some a) v h = .ok (r, h') ∧ h' a = some c' ∧ c'.DNSSANs = v) ∧
    (∀ v, ∃ r h' c', WithIPSANs (some a) v h = .ok (r, h') ∧ h' a = some c' ∧ c'.IPSANs = v) ∧
    (∀ v, ∃ r h' c', WithDatacenter (some a) v h = .ok (r, h') ∧ h' a = some c' ∧ c'.Datacenter = v) ∧
    (∀ v, ∃ r h' c', WithNodeName (some a) v h = .ok (r, h') ∧ h' a = some c' ∧ c'.NodeName = v) ∧
    (∀ v, ∃ r h' c', WithFallbackLeeway (some a) v h = .ok (r, h') ∧ h' a = some c' ∧ c'.FallbackLeeway = v) ∧
    (∀ v, ∃ r h' c', WithFallbackRetry (some a) v h = .ok (r, h') ∧ h' a = some c' ∧ c'.FallbackRetry = v) := by
  refine ⟨?_, ?_, ?_, ?_, ?_, ?_, ?_, ?_, ?_, ?_, ?_, ?_⟩ <;> intro v <;>
    exact ⟨_, _, _, assignAndReturn_ok h a c _ hc, Function.update_same _ _ _, rfl⟩

/-- Witness of C1 on the heap holding one zero-value `Config`: a negative and a zero duration,
a nil pointer, a nil slice, an empty slice and the empty string are stored as given. -/
theorem setters_store_verbatim_witness :
    Heap.single 0 Config.zero 0 = some Config.zero ∧
    (∃ r h' c', WithFallbackLeeway (some 0) (-5) (Heap.single 0 Config.zero) = .ok (r, h') ∧
      h' 0 = some c' ∧ c'.FallbackLeeway = -5) ∧
    (∃ r h' c', WithFallbackRetry (some 0) 0 (Heap.single 0 Config.zero) = .ok (r, h') ∧
      h' 0 = some c' ∧ c'.FallbackRetry = 0) ∧
    (∃ r h' c', WithTokens (some 0) none (Heap.single 0 Config.zero) = .ok (r, h') ∧
      h' 0 = some c' ∧ c'.Tokens = none) ∧
    (∃ r h' c', WithDNSSANs (some 0) none (Heap.single 0 Config.zero) = .ok (r, h') ∧
      h' 0 = some c' ∧ c'.DNSSANs = none) ∧
    (∃ r h' c', WithIPSANs (some 0) (some []) (Heap.single 0 Config.zero) = .ok (r, h') ∧
      h' 0 = some c' ∧ c'.IPSANs = some []) ∧
    (∃ r h' c', WithNodeName (some 0) "" (Heap.single 0 Config.zero) = .ok (r, h') ∧
      h' 0 = some c' ∧ c'.NodeName = "") := by
  obtain ⟨_, _, _, hTokens, _, _, hDNS, hIP, _, hName, hLeeway, hRetry⟩ :=
    setters_store_verbatim (Heap.single 0 Config.zero) 0 Config.zero rfl
  exact ⟨rfl, hLeeway (-5), hRetry 0, hTokens none, hDNS none, hIP (some []), hName ""⟩

/-- C2: on a receiver that points to the `Config` `c`, each of the twelve setters leaves a
`Config` that is `c` with the setter's own field replaced, so the other eleven fields are those
of `c`; every other object of the heap is left as it was. -/
theorem setters_frame (h : Heap) (a : Nat) (c : Config) (hc : h a = some c) :
    (∀ v, ∃ r h' c', WithCache (some a) v h = .ok (r, h') ∧ h' a = some c' ∧
      c' = { c with Cache := c'.Cache } ∧ ∀ b, b ≠ a → h' b = h b) ∧
    (∀ v, ∃ r h' c', WithLogger (some a) v h = .ok (r, h') ∧ h' a = some c' ∧
      c' = { c with Logger := c'.Logger } ∧ ∀ b, b ≠ a → h' b = h b) ∧
    (∀ v, ∃ r h' c', WithTLSConfigurator (some a) v h = .ok (r, h') ∧ h' a = some c' ∧
      c' = { c with TLSConfigurator := c'.TLSConfigurator } ∧ ∀ b, b ≠ a → h' b = h b) ∧
    (∀ v, ∃ r h' c', WithTokens (some a) v h = .ok (r, h') ∧ h' a = some c' ∧
      c' = { c with Tokens := c'.Tokens } ∧ ∀ b, b ≠ a → h' b = h b) ∧
    (∀ v, ∃ r h' c', WithFallback (some a) v h = .ok (r, h') ∧ h' a = some c' ∧
      c' = { c with Fallback := c'.Fallback } ∧ ∀ b, b ≠ a → h' b = h b) ∧
    (∀ v, ∃ r h' c', WithInitialCerts (some a) v h = .ok (r, h') ∧ h' a = some c' ∧
      c' = { c with InitialCerts := c'.InitialCerts } ∧ ∀ b, b ≠ a → h' b = h b) ∧
    (∀ v, ∃ r h' c', WithDNSSANs (some a) v h = .ok (r, h') ∧ h' a = some c' ∧
      c' = { c with DNSSANs := c'.DNSSANs } ∧ ∀ b, b ≠ a → h' b = h b) ∧
    (∀ v, ∃ r h' c', WithIPSANs (some a) v h = .ok (r, h') ∧ h' a = some c' ∧
      c' = { c with IPSANs := c'.IPSANs } ∧ ∀ b, b ≠ a → h' b = h b) ∧
    (∀ v, ∃ r h' c', WithDatacenter (some a) v h = .ok (r, h') ∧ h' a = some c' ∧
      c' = { c with Datacenter := c'.Datacenter } ∧ ∀ b, b ≠ a → h' b = h b) ∧
    (∀ v, ∃ r h' c', WithNodeName (some a) v h = .ok (r, h') ∧ h' a = some c' ∧
      c' = { c with NodeName := c'.NodeName } ∧ ∀ b, b ≠ a → h' b = h b) ∧
    (∀ v, ∃ r h' c', WithFallbackLeeway (some a) v h = .ok (r, h') ∧ h' a = some c' ∧
      c' = { c with FallbackLeeway := c'.FallbackLeeway } ∧ ∀ b, b ≠ a → h' b = h b) ∧
    (∀ v, ∃ r h' c', WithFallbackRetry (some a) v h = .ok (r, h') ∧ h' a = some c' ∧
      c' = { c with FallbackRetry := c'.FallbackRetry } ∧ ∀ b, b ≠ a → h' b = h b) := by
  refine ⟨?_, ?_, ?_, ?_, ?_, ?_, ?_, ?_, ?_, ?_, ?_, ?_⟩ <;> intro v <;>
    exact ⟨_, _, _, assignAndReturn_ok h a c _ hc, Function.update_same _ _ _, rfl,
      fun b hb => Function.update_noteq hb _ _⟩

/-- Witness of C2: `WithDatacenter` on a `Config` in which every field is set. -/
theorem setters_frame_witness :
    Heap.single 7 (explicitRecord (some 1) (some 2) (some 3) (some 4) (some 5) 6 7 (some 8)
      (some ["a"]) (some [some [127, 0, 0, 1]]) "dc1" "n1") 7 =
      some (explicitRecord (some 1) (some 2) (some 3) (some 4) (some 5) 6 7 (some 8)
        (some ["a"]) (some [some [127, 0, 0, 1]]) "dc1" "n1") ∧
    ∃ r h' c', WithDatacenter (some 7) "dc2" (Heap.single 7 (explicitRecord (some 1) (some 2)
        (some 3) (some 4) (some 5) 6 7 (some 8) (some ["a"]) (some [some [127, 0, 0, 1]])
        "dc1" "n1")) = .ok (r, h') ∧ h' 7 = some c' ∧
      c' = { explicitRecord (some 1) (some 2) (some 3) (some 4) (some 5) 6 7 (some 8)
        (some ["a"]) (some [some [127, 0, 0, 1]]) "dc1" "n1" with Datacenter := c'.Datacenter } ∧
      ∀ b, b ≠ 7 → h' b = Heap.single 7 (explicitRecord (some 1) (some 2) (some 3) (some 4)
        (some 5) 6 7 (some 8) (some ["a"]) (some [some [127, 0, 0, 1]]) "dc1" "n1") b :=
  ⟨rfl, (setters_frame _ 7 _ rfl).2.2.2.2.2.2.2.2.1 "dc2"⟩

/-- C4: on a receiver that points to a `Config`, a chain of setter calls of any length returns
the receiver itself; the heap it leaves differs from the one before only at the receiver, which
holds the field assignments of all the calls applied in order; when the setters of the chain
are pairwise distinct, the field of every call holds that call's argument. In particular one
setter call returns its receiver. -/
theorem chain_returns_receiver (h : Heap) (a : Nat) (c : Config) (hc : h a = some c)
    (ks : List Call) :
    (∃ h' c', chain (some a) ks h = .ok (some a, h') ∧ h' a = some c' ∧
      c' = ks.foldl Call.update c ∧ (∀ b, b ≠ a → h' b = h b) ∧
      ((ks.map Call.field).Nodup → ∀ k ∈ ks, k.stored c')) ∧
    (∀ k : Call, ∃ h', k.invoke (some a) h = .ok (some a, h')) := by
  refine ⟨⟨_, _, chain_ok ks h a c hc, Function.update_same _ _ _, rfl,
    fun b hb => Function.update_noteq hb _ _, fun hnd => stored_foldl_nodup ks c hnd⟩, ?_⟩
  intro k
  exact ⟨_, invoke_ok k h a c hc⟩

/-- Witness of C4: `cfg.WithDatacenter("dc1").WithNodeName("n1").WithFallbackRetry(5s)` on a
zero-value `Config`. -/
theorem chain_returns_receiver_witness :
    Heap.single 0 Config.zero 0 = some Config.zero ∧
    (∃ h' c', chain (some 0) [.WithDatacenter "dc1", .WithNodeName "n1",
        .WithFallbackRetry (5 * Second)] (Heap.single 0 Config.zero) = .ok (some 0, h') ∧
      h' 0 = some c' ∧
      c' = [Call.WithDatacenter "dc1", .WithNodeName "n1",
        .WithFallbackRetry (5 * Second)].foldl Call.update Config.zero ∧
      (∀ b, b ≠ 0 → h' b = Heap.single 0 Config.zero b) ∧
      (([Call.WithDatacenter "dc1", .WithNodeName "n1",
          .WithFallbackRetry (5 * Second)].map Call.field).Nodup →
        ∀ k ∈ [Call.WithDatacenter "dc1", .WithNodeName "n1",
          .WithFallbackRetry (5 * Second)], k.stored c')) :=
  ⟨rfl, (chain_returns_receiver (Heap.single 0 Config.zero) 0 Config.zero rfl _).1⟩

/-- C5: on a receiver that points to any `Config`, calling each of the twelve setters once, in
any order, leaves at the receiver exactly the explicit record built from the twelve
arguments. -/
theorem builder_refines_record (h : Heap) (a : Nat) (c : Config) (hc : h a = some c)
    (logger : Logger) (tlsConfigurator : ConfiguratorPtr) (cache : Cache)
    (tokens : StorePtr) (fallback : FallbackFunc) (leeway retry : Duration)
    (info : SignedResponsePtr) (dnsSANs : Slice String) (ipSANs : Slice IP)
    (dc name : String) (ks : List Call)
    (hks : ks.Perm (allTwelve logger tlsConfigurator cache tokens fallback leeway retry info
      dnsSANs ipSANs dc name)) :
    chain (some a) ks h = .ok (some a, Function.update h a (some (explicitRecord logger
      tlsConfigurator cache tokens fallback leeway retry info dnsSANs ipSANs dc name))) := by
  rw [chain_ok ks h a c hc]
  have hcomm : ∀ x ∈ allTwelve logger tlsConfigurator cache tokens fallback leeway retry info
      dnsSANs ipSANs dc name, ∀ y ∈ allTwelve logger tlsConfigurator cache tokens fallback
      leeway retry info dnsSANs ipSANs dc name, ∀ z : Config,
      Call.update (Call.update z x) y = Call.update (Call.update z y) x := by
    intro x hx y hy z
    simp only [allTwelve, List.mem_cons, List.mem_singleton, List.not_mem_nil, or_false] at hx hy
    rcases hx with rfl | rfl | rfl | rfl | rfl | rfl | rfl | rfl | rfl | rfl | rfl | rfl <;>
      rcases hy with rfl | rfl | rfl | rfl | rfl | rfl | rfl | rfl | rfl | rfl | rfl | rfl <;>
      rfl
  have hfold : ks.foldl Call.update c = (allTwelve logger tlsConfigurator cache tokens fallback
      leeway retry info dnsSANs ipSANs dc name).foldl Call.update c :=
    (List.Perm.foldl_eq' hks.symm hcomm c).symm
  rw [hfold]
  rfl

/-- Witness of C5: the twelve setters called in the reverse of the source order on a
zero-value `Config`. -/
theorem builder_refines_record_witness :
    Heap.single 0 Config.zero 0 = some Config.zero ∧
    (allTwelve (some 1) (some 2) (some 3) (some 4) (some 5) 6 7 (some 8) (some ["a"])
      (some [some [127, 0, 0, 1]]) "dc1" "n1").reverse.Perm
      (allTwelve (some 1) (some 2) (some 3) (some 4) (some 5) 6 7 (some 8) (some ["a"])
        (some [some [127, 0, 0, 1]]) "dc1" "n1") ∧
    chain (some 0) (allTwelve (some 1) (some 2) (some 3) (some 4) (some 5) 6 7 (some 8)
        (some ["a"]) (some [some [127, 0, 0, 1]]) "dc1" "n1").reverse
        (Heap.single 0 Config.zero) =
      .ok (some 0, Function.update (Heap.single 0 Config.zero) 0 (some (explicitRecord (some 1)
        (some 2) (some 3) (some 4) (some 5) 6 7 (some 8) (some ["a"])
        (some [some [127, 0, 0, 1]]) "dc1" "n1"))) :=
  ⟨rfl, List.reverse_perm _,
    builder_refines_record (Heap.single 0 Config.zero) 0 Config.zero rfl (some 1) (some 2)
      (some 3) (some 4) (some 5) 6 7 (some 8) (some ["a"]) (some [some [127, 0, 0, 1]])
      "dc1" "n1" _ (List.reverse_perm _)⟩

/-- C9: with any receiver and heap, calling one setter any number of times and then once more
with argument `b` gives the same result and leaves the same heap as the single call with `b`;
in particular `WithX(a).WithX(b)` is `WithX(b)` and `WithX(a).WithX(a)` is `WithX(a)`. On a
receiver that points to a `Config` `c` these calls succeed and return the receiver, and the
`Config` they leave is `c` with field `X` holding `b`: the last value written is the one
stored, whatever was written before. -/
theorem last_write_wins (cfg : ConfigPtr) (h : Heap) (xs : List Call) (y : Call)
    (hxs : ∀ x ∈ xs, x.field = y.field) :
    chain cfg (xs ++ [y]) h = chain cfg [y] h ∧
    (∀ x : Call, x.field = y.field → chain cfg [x, y] h = chain cfg [y] h) ∧
    chain cfg [y, y] h = chain cfg [y] h ∧
    (∀ a c, cfg = some a → h a = some c →
      ∃ h' c', chain cfg (xs ++ [y]) h = .ok (some a, h') ∧ h' a = some c' ∧
        y.stored c' ∧ c' = Call.update c y ∧ (∀ b, b ≠ a → h' b = h b) ∧
        ∀ x : Call, x.field = y.field →
          ∃ h2 c2, chain cfg [x, y] h = .ok (some a, h2) ∧ h2 a = some c2 ∧ y.stored c2) := by
  have key : ∀ zs : List Call, (∀ x ∈ zs, x.field = y.field) →
      chain cfg (zs ++ [y]) h = chain cfg [y] h := by
    intro zs hzs
    cases cfg with
    | none =>
      cases zs with
      | nil => rfl
      | cons z zs => rw [List.cons_append, chain_cons_nil, chain_cons_nil]
    | some a =>
      cases hc : h a with
      | none =>
        cases zs with
        | nil => rfl
        | cons z zs =>
          rw [List.cons_append, chain_cons_unallocated _ _ _ _ hc,
            chain_cons_unallocated _ _ _ _ hc]
      | some c =>
        rw [chain_ok _ h a c hc, chain_ok _ h a c hc, foldl_same_field zs y c hzs]
        rfl
  have live : ∀ zs : List Call, (∀ x ∈ zs, x.field = y.field) → ∀ a c, cfg = some a →
      h a = some c → chain cfg (zs ++ [y]) h =
        .ok (some a, Function.update h a (some (Call.update c y))) := by
    intro zs hzs a c hcfg hc
    rw [hcfg, chain_ok _ h a c hc, foldl_same_field zs y c hzs]
  refine ⟨key xs hxs, fun x hx => ?_, ?_, ?_⟩
  · exact key [x] (fun z hz => by rw [List.mem_singleton.mp hz]; exact hx)
  · exact key [y] (fun z hz => by rw [List.mem_singleton.mp hz])
  · intro a c hcfg hc
    refine ⟨_, _, live xs hxs a c hcfg hc, Function.update_same _ _ _, stored_update c y, rfl,
      fun b hb => Function.update_noteq hb _ _, fun x hx => ?_⟩
    exact ⟨_, _, live [x] (fun z hz => by rw [List.mem_singleton.mp hz]; exact hx) a c hcfg hc,
      Function.update_same _ _ _, stored_update c y⟩

/-- Witness of C9: three calls of `WithNodeName` on a zero-value `Config`; the name left is
that of the last call. -/
theorem last_write_wins_witness :
    (∀ x ∈ [Call.WithNodeName "a", Call.WithNodeName "b"],
      x.field = (Call.WithNodeName "c").field) ∧
    chain (some 0) ([Call.WithNodeName "a", Call.WithNodeName "b"] ++ [Call.WithNodeName "c"])
      (Heap.single 0 Config.zero) =
      chain (some 0) [Call.WithNodeName "c"] (Heap.single 0 Config.zero) ∧
    ∃ h' c', chain (some 0)
        ([Call.WithNodeName "a", Call.WithNodeName "b"] ++ [Call.WithNodeName "c"])
        (Heap.single 0 Config.zero) = .ok (some 0, h') ∧
      h' 0 = some c' ∧ c'.NodeName = "c" := by
  have hw := last_write_wins (some 0) (Heap.single 0 Config.zero)
    [Call.WithNodeName "a", Call.WithNodeName "b"] (Call.WithNodeName "c") (by decide)
  obtain ⟨h', c', h1, h2, h3, _⟩ := hw.2.2.2 0 Config.zero rfl rfl
  exact ⟨by decide, hw.1, h', c', h1, h2, h3⟩

/-- C10: with any receiver and heap, two calls of setters of different fields give the same
result and leave the same heap in either order. -/
theorem setters_commute (cfg : ConfigPtr) (h : Heap) (x y : Call)
    (hxy : x.field ≠ y.field) : chain cfg [x, y] h = chain cfg [y, x] h := by
  cases cfg with
  | none => rw [chain_cons_nil, chain_cons_nil]
  | some a =>
    cases hc : h a with
    | none => rw [chain_cons_unallocated _ _ _ _ hc, chain_cons_unallocated _ _ _ _ hc]
    | some c =>
      rw [chain_ok _ h a c hc, chain_ok _ h a c hc]
      simp only [List.foldl_cons, List.foldl_nil]
      rw [update_comm c x y hxy]

/-- Witness of C10: `WithDatacenter` and `WithFallbackLeeway` on a zero-value `Config`. -/
theorem setters_commute_witness :
    (Call.WithDatacenter "dc1").field ≠ (Call.WithFallbackLeeway 3).field ∧
    chain (some 0) [Call.WithDatacenter "dc1", Call.WithFallbackLeeway 3]
      (Heap.single 0 Config.zero) =
      chain (some 0) [Call.WithFallbackLeeway 3, Call.WithDatacenter "dc1"]
      (Heap.single 0 Config.zero) :=
  ⟨by decide, setters_commute (some 0) (Heap.single 0 Config.zero) _ _ (by decide)⟩

/-- C3: the code at the failing input. The zero-value `Config` has `FallbackLeeway` 0 and not
the 10 seconds of the claim and of the comment of `WithFallbackLeeway`; the `Config` left by
the other eleven setters called on it has `FallbackLeeway` 0 as well: no default is applied. -/
theorem default_leeway_not_applied :
    Config.zero.FallbackLeeway = 0 ∧ Config.zero.FallbackLeeway ≠ 10 * Second ∧
    ∃ h' c', chain (some 0) [.WithCache (some 1), .WithLogger (some 2),
        .WithTLSConfigurator (some 3), .WithTokens (some 4), .WithFallback (some 5),
        .WithInitialCerts (some 6), .WithDNSSANs (some ["a"]), .WithIPSANs (some []),
        .WithDatacenter "dc1", .WithNodeName "n1", .WithFallbackRetry (5 * Second)]
        (Heap.single 0 Config.zero) = .ok (some 0, h') ∧
      h' 0 = some c' ∧ c'.FallbackLeeway = 0 ∧ c'.FallbackLeeway ≠ 10 * Second := by
  refine ⟨rfl, by decide, _, _, chain_ok _ _ 0 Config.zero rfl, Function.update_same _ _ _,
    rfl, ?_⟩
  decide

/-! ## The claims about the renewal scheduler -/

theorem step_outstanding (cfg : Config) (pub : CertificateValue → Bool) (now : Time)
    (s : RenewalState) (e : Event)
    (hs : s.outstanding ≤ 1 ∧ (s.state ≠ .FALLBACK_PENDING → s.outstanding = 0)) :
    (step cfg pub now s e).1.outstanding ≤ 1 ∧
    ((step cfg pub now s e).1.state ≠ .FALLBACK_PENDING →
      (step cfg pub now s e).1.outstanding = 0) := by
  obtain ⟨st, act, lu, out, dl, stp⟩ := s
  obtain ⟨h1, h2⟩ := hs
  simp only at h1 h2
  cases stp
  · cases e <;> cases st <;> simp [step, invokeFallback, fallbackFailed] at h2 ⊢ <;>
      (try split) <;> (try split) <;> (try split) <;>
      first | (simp_all; done) | (simp_all; omega)
  · simpa [step] using ⟨h1, h2⟩

theorem start_outstanding (cfg : Config) (initial : Option CertificateValue) :
    (start cfg initial).1.outstanding ≤ 1 ∧
    ((start cfg initial).1.state ≠ .FALLBACK_PENDING → (start cfg initial).1.outstanding = 0) := by
  cases initial <;> simp [start]

theorem foldl_outstanding (cfg : Config) (pub : CertificateValue → Bool)
    (es : List (Time × Event)) (s : RenewalState)
    (hs : s.outstanding ≤ 1 ∧ (s.state ≠ .FALLBACK_PENDING → s.outstanding = 0)) :
    (es.foldl (fun s e => (step cfg pub e.1 s e.2).1) s).outstanding ≤ 1 ∧
    ((es.foldl (fun s e => (step cfg pub e.1 s e.2).1) s).state ≠ .FALLBACK_PENDING →
      (es.foldl (fun s e => (step cfg pub e.1 s e.2).1) s).outstanding = 0) := by
  induction es generalizing s with
  | nil => exact hs
  | cons e es ih => exact ih _ (step_outstanding cfg pub e.1 s e.2 hs)

theorem run_outstanding (cfg : Config) (pub : CertificateValue → Bool)
    (initial : Option CertificateValue) (es : List (Time × Event)) :
    (run cfg pub initial es).outstanding ≤ 1 ∧
    ((run cfg pub initial es).state ≠ .FALLBACK_PENDING →
      (run cfg pub initial es).outstanding = 0) :=
  foldl_outstanding cfg pub es _ (start_outstanding cfg initial)

theorem run_append (cfg : Config) (pub : CertificateValue → Bool)
    (initial : Option CertificateValue) (es : List (Time × Event)) (t : Time) (e : Event) :
    run cfg pub initial (es ++ [(t, e)]) = (step cfg pub t (run cfg pub initial es) e).1 := by
  simp [run, List.foldl_append]

theorem step_pending_no_start (cfg : Config) (pub : CertificateValue → Bool) (now : Time)
    (s : RenewalState) (e : Event) (hp : s.state = .FALLBACK_PENDING) :
    Action.startFallback ∉ (step cfg pub now s e).2 := by
  obtain ⟨st, act, lu, out, dl, stp⟩ := s
  simp only at hp
  subst hp
  cases stp
  · cases e <;> simp [step, invokeFallback, fallbackFailed] <;>
      (try split) <;> (try split) <;> (try split) <;> simp_all
  · simp [step]

theorem step_pending_wake (cfg : Config) (pub : CertificateValue → Bool) (now : Time)
    (s : RenewalState) (hp : s.state = .FALLBACK_PENDING) :
    step cfg pub now s .wake = (s, []) := by
  obtain ⟨st, act, lu, out, dl, stp⟩ := s
  simp only at hp
  subst hp
  cases stp <;> cases dl <;> simp [step, invokeFallback]

theorem step_start_counts (cfg : Config) (pub : CertificateValue → Bool) (now : Time)
    (s : RenewalState) (e : Event) (hs : s.state ≠ .FALLBACK_PENDING → s.outstanding = 0)
    (hst : Action.startFallback ∈ (step cfg pub now s e).2) :
    s.outstanding = 0 ∧ (step cfg pub now s e).1.outstanding = 1 ∧
    (step cfg pub now s e).2 = [.startFallback] := by
  obtain ⟨st, act, lu, out, dl, stp⟩ := s
  simp only at hs
  cases stp
  · cases e <;> cases st <;> simp [step, invokeFallback, fallbackFailed] at hs hst ⊢ <;>
      (try split at hst) <;> (try split at hst) <;> (try split at hst) <;> simp_all
  · simp [step] at hst

/-- C7: in every state a run of the scheduler reaches, at most one call of `Config.Fallback`
is in flight. While one is in flight no event starts another, and the expiry of the wake
deadline leaves the state as it is and does nothing. A transition that starts a call starts
exactly one, from a state with none in flight. The bound is attained: with no initial
certificate a call is in flight from the start. -/
theorem at_most_one_fallback_outstanding (cfg : Config) (pub : CertificateValue → Bool)
    (initial : Option CertificateValue) (es : List (Time × Event)) :
    (run cfg pub initial es).outstanding ≤ 1 ∧
    (0 < (run cfg pub initial es).outstanding →
      (∀ now e, Action.startFallback ∉ (step cfg pub now (run cfg pub initial es) e).2) ∧
      ∀ now, step cfg pub now (run cfg pub initial es) .wake = (run cfg pub initial es, [])) ∧
    (∀ now e, Action.startFallback ∈ (step cfg pub now (run cfg pub initial es) e).2 →
      (run cfg pub initial es).outstanding = 0 ∧
      (step cfg pub now (run cfg pub initial es) e).1.outstanding = 1 ∧
      (step cfg pub now (run cfg pub initial es) e).2 = [.startFallback]) ∧
    (run cfg pub none []).outstanding = 1 := by
  obtain ⟨h1, h2⟩ := run_outstanding cfg pub initial es
  refine ⟨h1, fun hpos => ?_, fun now e hst => step_start_counts cfg pub now _ e h2 hst, rfl⟩
  have hp : (run cfg pub initial es).state = .FALLBACK_PENDING := by
    by_contra hne
    have := h2 hne
    omega
  exact ⟨fun now e => step_pending_no_start cfg pub now _ e hp,
    fun now => step_pending_wake cfg pub now _ hp⟩

theorem step_watcher_published (cfg : Config) (pub : CertificateValue → Bool) (now : Time)
    (s : RenewalState) (w : CertificateValue)
    (hpub : Action.publish w ∈ (step cfg pub now s (.watcherUpdate w)).2) (hok : pub w = true) :
    (step cfg pub now s (.watcherUpdate w)).1.state = .WATCHING ∧
    (step cfg pub now s (.watcherUpdate w)).1.active = some w := by
  obtain ⟨st, act, lu, out, dl, stp⟩ := s
  cases stp
  · by_cases ha : acceptable now act w = true
    · simp [step, ha, hok]
    · simp [step, ha] at hpub
  · simp [step] at hpub

theorem step_result_dropped (cfg : Config) (pub : CertificateValue → Bool) (now : Time)
    (s : RenewalState) (f : CertificateValue) (hp : s.state ≠ .FALLBACK_PENDING) :
    step cfg pub now s (.fallbackOk f) = (s, []) := by
  obtain ⟨st, act, lu, out, dl, stp⟩ := s
  cases stp <;> cases st <;> simp_all [step]

theorem step_result_not_newer (cfg : Config) (pub : CertificateValue → Bool) (now : Time)
    (s : RenewalState) (w f : CertificateValue) (hw : s.active = some w)
    (hf : f.notAfter ≤ w.notAfter) :
    (step cfg pub now s (.fallbackOk f)).1.active = some w ∧
    ∀ c, Action.publish c ∉ (step cfg pub now s (.fallbackOk f)).2 := by
  obtain ⟨st, act, lu, out, dl, stp⟩ := s
  simp only at hw
  subst hw
  have ha : acceptable now (some w) f = false := by
    simp only [acceptable, Bool.and_eq_false_iff, decide_eq_false_iff_not, not_lt]
    exact Or.inr hf
  cases stp
  · cases st <;> simp [step, ha, fallbackFailed]
  · simp [step]

/-- C8: when a watcher-sourced certificate `w` has just been published, a successful Fallback
result handled next, at any time, is dropped: nothing is published and the active certificate
is still `w`. More generally, in every state a run reaches with `w` active, a successful
Fallback result is not published and `w` stays active whenever no call is pending (the call
was cancelled by the watcher update) or the result does not outlast `w`. -/
theorem stale_fallback_result_not_published (cfg : Config) (pub : CertificateValue → Bool)
    (initial : Option CertificateValue) (es : List (Time × Event)) (t1 t2 : Time)
    (w f : CertificateValue)
    (hpub : Action.publish w ∈
      (step cfg pub t1 (run cfg pub initial es) (.watcherUpdate w)).2)
    (hok : pub w = true) :
    (run cfg pub initial (es ++ [(t1, .watcherUpdate w)])).active = some w ∧
    step cfg pub t2 (run cfg pub initial (es ++ [(t1, .watcherUpdate w)])) (.fallbackOk f) =
      (run cfg pub initial (es ++ [(t1, .watcherUpdate w)]), []) ∧
    (run cfg pub initial (es ++ [(t1, .watcherUpdate w)] ++ [(t2, .fallbackOk f)])).active =
      some w ∧
    ∀ (es2 : List (Time × Event)) (now : Time) (g : CertificateValue),
      (run cfg pub initial (es ++ [(t1, .watcherUpdate w)] ++ es2)).active = some w →
      ((run cfg pub initial (es ++ [(t1, .watcherUpdate w)] ++ es2)).state ≠ .FALLBACK_PENDING ∨
        g.notAfter ≤ w.notAfter) →
      (step cfg pub now (run cfg pub initial (es ++ [(t1, .watcherUpdate w)] ++ es2))
        (.fallbackOk g)).1.active = some w ∧
      ∀ c, Action.publish c ∉ (step cfg pub now
        (run cfg pub initial (es ++ [(t1, .watcherUpdate w)] ++ es2)) (.fallbackOk g)).2 := by
  obtain ⟨hst, hact⟩ := step_watcher_published cfg pub t1 _ w hpub hok
  rw [← run_append] at hst hact
  have hdrop := step_result_dropped cfg pub t2
    (run cfg pub initial (es ++ [(t1, .watcherUpdate w)])) f (by rw [hst]; decide)
  refine ⟨hact, hdrop, ?_, ?_⟩
  · rw [run_append, hdrop]
    exact hact
  · intro es2 now g hw hcase
    rcases hcase with hp | hg
    · rw [step_result_dropped cfg pub now _ g hp]
      exact ⟨hw, fun c hc => by cases hc⟩
    · exact step_result_not_newer cfg pub now _ w g hw hg

/-- Witness of C8: the seed expires at 3600s, the deadline expiry at 3610s starts a Fallback
call, the watcher delivers a certificate valid until 7200s at 3611s, and the result of the
call arrives at 3612s. -/
theorem stale_fallback_result_not_published_witness :
    (fun _ : CertificateValue => true) ⟨2, 0, 7200 * Second⟩ = true ∧
    Action.publish ⟨2, 0, 7200 * Second⟩ ∈
      (step scenarioConfig (fun _ => true) (3611 * Second)
        (run scenarioConfig (fun _ => true) (some ⟨1, 0, 3600 * Second⟩)
          [(3610 * Second, .wake)]) (.watcherUpdate ⟨2, 0, 7200 * Second⟩)).2 ∧
    (run scenarioConfig (fun _ => true) (some ⟨1, 0, 3600 * Second⟩)
      ([(3610 * Second, .wake)] ++ [(3611 * Second, .watcherUpdate ⟨2, 0, 7200 * Second⟩)] ++
        [(3612 * Second, .fallbackOk ⟨3, 0, 7000 * Second⟩)])).active =
      some ⟨2, 0, 7200 * Second⟩ :=
  ⟨rfl, by decide, (stale_fallback_result_not_published scenarioConfig (fun _ => true)
    (some ⟨1, 0, 3600 * Second⟩) [(3610 * Second, .wake)] (3611 * Second) (3612 * Second)
    ⟨2, 0, 7200 * Second⟩ ⟨3, 0, 7000 * Second⟩ (by decide) rfl).2.2.1⟩

theorem callTimes_append (l1 l2 : List (Time × Action)) :
    callTimes (l1 ++ l2) = callTimes l1 ++ callTimes l2 := by
  simp [callTimes, List.filter_append]

theorem callTimes_stamp_none (t : Time) (acts : List Action)
    (hn : Action.startFallback ∉ acts) : callTimes (acts.map (fun a => (t, a))) = [] := by
  induction acts with
  | nil => rfl
  | cons a as ih =>
    have ha : a ≠ Action.startFallback := fun h => hn (h ▸ List.mem_cons_self a as)
    have has : Action.startFallback ∉ as := fun h => hn (List.mem_cons_of_mem a h)
    have ih' := ih has
    simp only [callTimes, List.map_cons, List.filter_cons, ha, decide_False] at ih' ⊢
    exact ih'

theorem step_quiet (cfg : Config) (pub : CertificateValue → Bool) (now d : Time)
    (s : RenewalState) (e : Event)
    (hJ : s.state ≠ .FALLBACK_PENDING ∧ (s.stopped = true ∨ s.deadline = some d))
    (he : e.fromWatcher = false) (hnow : now < d) :
    Action.startFallback ∉ (step cfg pub now s e).2 ∧
    (step cfg pub now s e).1.state ≠ .FALLBACK_PENDING ∧
    ((step cfg pub now s e).1.stopped = true ∨ (step cfg pub now s e).1.deadline = some d) := by
  obtain ⟨st, act, lu, out, dl, stp⟩ := s
  obtain ⟨h1, h2⟩ := hJ
  simp only at h1 h2
  have hnd : ¬ d ≤ now := not_le.mpr hnow
  cases stp
  · simp only [Bool.false_eq_true, false_or] at h2
    subst h2
    cases e <;> cases st <;>
      simp_all [step, invokeFallback, fallbackFailed, Event.fromWatcher] <;>
      (try split) <;> first | linarith | simp
  · simp [step, h1]

theorem logFrom_quiet (cfg : Config) (pub : CertificateValue → Bool) (d : Time)
    (es : List (Time × Event)) (s : RenewalState)
    (hJ : s.state ≠ .FALLBACK_PENDING ∧ (s.stopped = true ∨ s.deadline = some d))
    (hes : ∀ e ∈ es, e.1 < d ∧ e.2.fromWatcher = false) :
    callTimes (logFrom cfg pub s es) = [] := by
  induction es generalizing s with
  | nil => rfl
  | cons e es ih =>
    obtain ⟨he1, he2⟩ := hes e (List.mem_cons_self e es)
    obtain ⟨hq1, hq2⟩ := step_quiet cfg pub e.1 d s e.2 hJ he2 he1
    simp only [logFrom, callTimes_append, callTimes_stamp_none _ _ hq1, List.nil_append]
    exact ih _ hq2 (fun x hx => hes x (List.mem_cons_of_mem e hx))

theorem failing_round (cfg : Config) (pub : CertificateValue → Bool) (d : Time)
    (lat : Duration) (s : RenewalState) (hstop : s.stopped = false)
    (hst : s.state ≠ .FALLBACK_PENDING) (hd : s.deadline = some d) :
    (step cfg pub d s .wake).2 = [.startFallback] ∧
    Action.startFallback ∉
      (step cfg pub (d + lat) (step cfg pub d s .wake).1 .fallbackErr).2 ∧
    (step cfg pub (d + lat) (step cfg pub d s .wake).1 .fallbackErr).1.stopped = false ∧
    (step cfg pub (d + lat) (step cfg pub d s .wake).1 .fallbackErr).1.state =
      .FALLBACK_BACKOFF ∧
    (step cfg pub (d + lat) (step cfg pub d s .wake).1 .fallbackErr).1.deadline =
      some (d + lat + cfg.FallbackRetry) := by
  obtain ⟨st, act, lu, out, dl, stp⟩ := s
  simp only at hstop hst hd
  subst hstop hd
  cases st <;> simp [step, invokeFallback, fallbackFailed] at hst ⊢ <;>
    (cases act <;> simp)

theorem failingEvents_calls (cfg : Config) (pub : CertificateValue → Bool)
    (lats : List Duration) (s : RenewalState) (d : Time) (hstop : s.stopped = false)
    (hst : s.state ≠ .FALLBACK_PENDING) (hd : s.deadline = some d) :
    callTimes (logFrom cfg pub s (failingEvents cfg pub lats s)) =
      retrySchedule d cfg.FallbackRetry lats := by
  induction lats generalizing s d with
  | nil => rfl
  | cons lat lats ih =>
    obtain ⟨h1, h2, h3, h4, h5⟩ := failing_round cfg pub d lat s hstop hst hd
    have h4' : (step cfg pub (d + lat) (step cfg pub d s .wake).1 .fallbackErr).1.state ≠
        .FALLBACK_PENDING := by rw [h4]; decide
    simp only [failingEvents, hd, logFrom, callTimes_append, callTimes_stamp_none _ _ h2, h1,
      List.nil_append, retrySchedule, ih _ _ h3 h4' h5]
    rfl

theorem failingEvents_no_watcher (cfg : Config) (pub : CertificateValue → Bool)
    (lats : List Duration) (s : RenewalState) :
    ∀ e ∈ failingEvents cfg pub lats s, e.2.fromWatcher = false := by
  induction lats generalizing s with
  | nil => intro e he; cases he
  | cons lat lats ih =>
    intro e he
    cases hd : s.deadline with
    | none => simp [failingEvents, hd] at he
    | some d =>
      simp only [failingEvents, hd, List.mem_cons] at he
      rcases he with rfl | rfl | he
      · rfl
      · rfl
      · exact ih _ e he

theorem retrySchedule_immediate (d : Time) (retry : Duration) (n : Nat) :
    retrySchedule d retry (List.replicate n 0) =
      (List.range n).map (fun (k : Nat) => d + (k : Int) * retry) := by
  induction n generalizing d with
  | zero => rfl
  | succ n ih =>
    rw [List.replicate_succ, retrySchedule, ih, List.range_succ_eq_map, List.map_cons,
      List.map_map]
    congr 1
    · simp
    · refine List.map_congr_left ?_
      intro k _
      simp only [Function.comp_apply]
      push_cast
      ring

/-- C6: the wake deadline is `notAfter - FallbackLeeway`, and after a Fallback call has failed
the next one is made `FallbackRetry` after the failure. With leeway 10s, retry 5s and an initial
certificate that expires at 3600s the deadline is 3590s and nothing is started at the start;
no events other than watcher events, at whatever times before 3590s, start a call; when the
timer fires at each wake deadline and every call fails as soon as it is made, the calls are
made at 3590s, 3595s, 3600s, 3605s and so on in steps of 5s, `n` calls for every `n`; when the
failures arrive later, each next call is 5s after the failure; and in `FALLBACK_BACKOFF` no
call is started before the retry deadline. -/
theorem fallback_schedule (cfg : Config) (pub : CertificateValue → Bool)
    (c : CertificateValue) (hl : cfg.FallbackLeeway = 10 * Second)
    (hr : cfg.FallbackRetry = 5 * Second) (hc : c.notAfter = 3600 * Second) :
    (start cfg (some c)).1.deadline = some (c.notAfter - cfg.FallbackLeeway) ∧
    (start cfg (some c)).1.deadline = some (3590 * Second) ∧
    (start cfg (some c)).2 = [] ∧
    (∀ es : List (Time × Event), (∀ e ∈ es, e.1 < 3590 * Second ∧ e.2.fromWatcher = false) →
      callTimes (logFrom cfg pub (start cfg (some c)).1 es) = []) ∧
    (∀ n : Nat,
      (∀ e ∈ failingEvents cfg pub (List.replicate n 0) (start cfg (some c)).1,
        e.2.fromWatcher = false) ∧
      callTimes (logFrom cfg pub (start cfg (some c)).1
        (failingEvents cfg pub (List.replicate n 0) (start cfg (some c)).1)) =
        (List.range n).map (fun (k : Nat) => 3590 * Second + (k : Int) * (5 * Second))) ∧
    (∀ lats : List Duration,
      callTimes (logFrom cfg pub (start cfg (some c)).1
        (failingEvents cfg pub lats (start cfg (some c)).1)) =
        retrySchedule (3590 * Second) (5 * Second) lats) ∧
    (∀ (s : RenewalState) (now : Time), s.stopped = false → s.state = .FALLBACK_PENDING →
      (step cfg pub now s .fallbackErr).1.state = .FALLBACK_BACKOFF ∧
      (step cfg pub now s .fallbackErr).1.deadline = some (now + 5 * Second)) ∧
    (∀ (s : RenewalState) (d : Time) (es : List (Time × Event)),
      s.state = .FALLBACK_BACKOFF → s.deadline = some d →
      (∀ e ∈ es, e.1 < d ∧ e.2.fromWatcher = false) →
      callTimes (logFrom cfg pub s es) = []) := by
  have hd : (start cfg (some c)).1.deadline = some (3590 * Second) := by
    simp only [start, wakeDeadline, hl, hc, Second]
    norm_num
  have hsched : ∀ lats : List Duration,
      callTimes (logFrom cfg pub (start cfg (some c)).1
        (failingEvents cfg pub lats (start cfg (some c)).1)) =
        retrySchedule (3590 * Second) (5 * Second) lats := by
    intro lats
    rw [failingEvents_calls cfg pub lats _ (3590 * Second) rfl (by simp [start]) hd, hr]
  refine ⟨rfl, hd, rfl, ?_, ?_, hsched, ?_, ?_⟩
  · intro es hes
    exact logFrom_quiet cfg pub (3590 * Second) es _ ⟨by simp [start], Or.inr hd⟩ hes
  · intro n
    refine ⟨failingEvents_no_watcher cfg pub _ _, ?_⟩
    rw [hsched, retrySchedule_immediate]
  · intro s now hstop hst
    obtain ⟨st, act, lu, out, dl, stp⟩ := s
    simp only at hstop hst
    subst hstop hst
    simp [step, fallbackFailed, hr]
  · intro s d es hst hdl hes
    exact logFrom_quiet cfg pub d es s ⟨by rw [hst]; decide, Or.inr hdl⟩ hes

/-- Witness of C6: the scenario configuration and a seed valid from 0 to 3600s. The events of
two rounds are the timer at 3590s, the error at 3590s, the timer at 3595s and the error at
3595s; the first four calls are made at 3590s, 3595s, 3600s and 3605s. -/
theorem fallback_schedule_witness :
    scenarioConfig.FallbackLeeway = 10 * Second ∧ scenarioConfig.FallbackRetry = 5 * Second ∧
    (⟨1, 0, 3600 * Second⟩ : CertificateValue).notAfter = 3600 * Second ∧
    failingEvents scenarioConfig (fun _ => true) [0, 0]
        (start scenarioConfig (some ⟨1, 0, 3600 * Second⟩)).1 =
      [(3590 * Second, .wake), (3590 * Second, .fallbackErr), (3595 * Second, .wake),
        (3595 * Second, .fallbackErr)] ∧
    callTimes (logFrom scenarioConfig (fun _ => true)
        (start scenarioConfig (some ⟨1, 0, 3600 * Second⟩)).1
        (failingEvents scenarioConfig (fun _ => true) [0, 0, 0, 0]
          (start scenarioConfig (some ⟨1, 0, 3600 * Second⟩)).1)) =
      [3590 * Second, 3595 * Second, 3600 * Second, 3605 * Second] ∧
    ∀ n : Nat, callTimes (logFrom scenarioConfig (fun _ => true)
        (start scenarioConfig (some ⟨1, 0, 3600 * Second⟩)).1
        (failingEvents scenarioConfig (fun _ => true) (List.replicate n 0)
          (start scenarioConfig (some ⟨1, 0, 3600 * Second⟩)).1)) =
      (List.range n).map (fun (k : Nat) => 3590 * Second + (k : Int) * (5 * Second)) :=
  ⟨rfl, rfl, rfl, by decide, by decide,
    fun n => ((fallback_schedule scenarioConfig (fun _ => true) ⟨1, 0, 3600 * Second⟩
      rfl rfl rfl).2.2.2.2.1 n).2⟩

end certmon
